import Mathlib

/-!
Verification development for the trader repository: a shallow embedding of
the OKX client service (signed request gateway, order normalizer, asset
history recorder), the GitHub gist history merge, the chart drag-gesture
classifier, and the PnL estimator, together with theorems settling the
behavioural claims about them.

Modelling conventions:
- JavaScript strings are Lean String; a JS "truthy" string is a non-empty one.
- Millisecond timestamps (produced by Date.now and read back with parseInt)
  are modelled as Nat.
- Numeric values manipulated with parseFloat arithmetic are modelled as Rat.
- A fallible operation returns an Except String value (the thrown Error
  message), and every network operation is modelled as an Eff: the list of
  fetched paths together with the operation result.  The outcome of a fetch
  that does happen is an explicit parameter, so every theorem quantifies
  over it; an empty calls list states that no fetch was issued.
-/

namespace Trader

/-- Substring containment on char lists: the pattern is a prefix here or
somewhere in the tail.  Models JavaScript String.prototype.includes. -/
def infixOfCh (pat : List Char) : List Char → Bool
  | [] => pat.isEmpty
  | c :: rest => List.isPrefixOf pat (c :: rest) || infixOfCh pat rest

/-- String containment test, models path.includes(pat) from the source. -/
def strContains (s pat : String) : Bool :=
  infixOfCh pat.toList s.toList

/-- JS truthiness of an optional string field: present and non-empty. -/
def truthy : Option String → Bool
  | none => false
  | some s => !(s == "")

/-- Models the JS expression (v || d): the value when truthy, else d. -/
def jsOr (v : Option String) (d : String) : String :=
  match v with
  | some s => if s == "" then d else s
  | none => d

/-- Credentials and behaviour knobs, from types.ts ApiConfig (the fields the
claims depend on). -/
structure ApiConfig where
  apiKey : String
  secretKey : String
  passphrase : String
  githubToken : Option String
deriving Repr, DecidableEq

/-- OKXService.hasKeys: all three credential strings are truthy (non-empty). -/
def hasKeys (c : ApiConfig) : Bool :=
  !(c.apiKey == "") && !(c.secretKey == "") && !(c.passphrase == "")

/-- Result of a potentially network-touching operation: the list of request
paths actually fetched, and the operation outcome (Except.error carries the
thrown Error message). -/
structure Eff (α : Type) where
  calls : List String
  result : Except String α
deriving Repr

/-- OKXService.request (identical in both service revisions): classify the
path as public when it contains a /public/ or /market/ segment; a private
path without complete credentials throws before any fetch; otherwise the
fetch is issued and its outcome (supplied as fetchResult, absorbing response
parsing, 429 handling and transport failures) is returned. -/
def requestEff {β α : Type} (cfg : ApiConfig) (method path : String)
    (body : Option β) (fetchResult : Except String α) : Eff α :=
  let isPublic := strContains path "/public/" || strContains path "/market/"
  if !isPublic && !(hasKeys cfg) then ⟨[], Except.error "API Keys missing"⟩
  else
    let _ := method
    let _ := body
    ⟨[path], fetchResult⟩

/-- Position direction union type from types.ts. -/
inductive PosSide where
  | long
  | short
  | net
deriving Repr, DecidableEq

/-- calculatePnL from the formatter utilities: quantity is size times
contract value; long and net positions gain when price rises, short
positions gain when price falls. -/
def calculatePnL (entryPrice exitPrice size : ℚ) (side : PosSide)
    (contractVal : ℚ) : ℚ :=
  let q := size * contractVal
  if side = PosSide.long ∨ side = PosSide.net then (exitPrice - entryPrice) * q
  else (entryPrice - exitPrice) * q

/-- The position fields read by the drag-gesture classifier in
TradingChart.handleMouseMove: direction, signed size, average entry price. -/
structure DragPosition where
  posSide : PosSide
  pos : ℚ
  avgPx : ℚ
deriving Repr, DecidableEq

/-- The robust long/short check from TradingChart.handleMouseMove: short
direction, or net direction with negative size. -/
def isShortPos (p : DragPosition) : Bool :=
  p.posSide = PosSide.short || (p.posSide = PosSide.net && p.pos < 0)

/-- Drag candidate-price classification from TradingChart.handleMouseMove:
for a short position a candidate below entry is tp, otherwise sl; for the
rest a candidate above entry is tp, otherwise sl. -/
def classifyDrag (p : DragPosition) (currentPrice : ℚ) : String :=
  if isShortPos p then
    if currentPrice < p.avgPx then "tp" else "sl"
  else
    if p.avgPx < currentPrice then "tp" else "sl"

theorem hasKeys_false_of_empty (cfg : ApiConfig)
    (h : cfg.apiKey = "" ∨ cfg.secretKey = "" ∨ cfg.passphrase = "") :
    hasKeys cfg = false := by
  rcases h with h | h | h <;> simp [hasKeys, h]

/-- C1: with at least one empty credential field, a request whose path
contains neither /public/ nor /market/ throws the AuthMissing error (the
source message is "API Keys missing") and issues no fetch at all. -/
theorem request_auth_missing {β α : Type} (cfg : ApiConfig)
    (method path : String) (body : Option β) (fetchResult : Except String α)
    (hempty : cfg.apiKey = "" ∨ cfg.secretKey = "" ∨ cfg.passphrase = "")
    (hpub : strContains path "/public/" = false)
    (hmkt : strContains path "/market/" = false) :
    requestEff cfg method path body fetchResult
      = ⟨[], Except.error "API Keys missing"⟩ := by
  unfold requestEff
  rw [hpub, hmkt, hasKeys_false_of_empty cfg hempty]
  rfl

/-- C1 witness: empty api key, a private trading path, a fetch result that
would have succeeded; the request still fails with the auth error and
performs no call. -/
theorem request_auth_missing_witness :
    requestEff (β := Unit) ⟨"", "sec", "pass", none⟩ "GET"
        "/api/v5/account/balance" none (Except.ok ())
      = ⟨[], Except.error "API Keys missing"⟩ :=
  request_auth_missing ⟨"", "sec", "pass", none⟩ "GET"
    "/api/v5/account/balance" none (Except.ok ())
    (Or.inl rfl) (by decide) (by decide)

/-- C8: the PnL estimate of calculatePnL equals (exit - entry) * size *
contractValue for long and net positions and (entry - exit) * size *
contractValue for short positions, for all rational inputs. -/
theorem calculatePnL_formula (e x s c : ℚ) :
    calculatePnL e x s PosSide.long c = (x - e) * s * c ∧
    calculatePnL e x s PosSide.net c = (x - e) * s * c ∧
    calculatePnL e x s PosSide.short c = (e - x) * s * c := by
  refine ⟨?_, ?_, ?_⟩ <;> simp [calculatePnL] <;> ring

/-- C7 counterexample: the claim says a net position has long polarity
(candidate above entry classified tp), but the source treats a net position
with negative size as short: entry 100, candidate 105 is classified sl. -/
theorem classifyDrag_net_negative_counterexample :
    classifyDrag ⟨PosSide.net, -1, 100⟩ 105 = "sl" ∧
    ("sl" : String) ≠ "tp" := by
  constructor
  · rfl
  · decide

/-- C7 amended: drag classification follows the robust short check of the
source.  When the position is short, or net with negative size, a candidate
strictly below entry is tp and strictly above is sl; when the position is
long, or net with non-negative size, the polarity is reversed.  In
particular the short and long instances of the claim hold as stated. -/
theorem classifyDrag_polarity (p : DragPosition) (cand : ℚ) :
    (isShortPos p = true →
      (cand < p.avgPx → classifyDrag p cand = "tp") ∧
      (p.avgPx < cand → classifyDrag p cand = "sl")) ∧
    (isShortPos p = false →
      (p.avgPx < cand → classifyDrag p cand = "tp") ∧
      (cand < p.avgPx → classifyDrag p cand = "sl")) ∧
    (p.posSide = PosSide.short → isShortPos p = true) ∧
    (p.posSide = PosSide.long → isShortPos p = false) ∧
    (p.posSide = PosSide.net → 0 ≤ p.pos → isShortPos p = false) ∧
    (p.posSide = PosSide.net → p.pos < 0 → isShortPos p = true) := by
  refine ⟨?_, ?_, ?_, ?_, ?_, ?_⟩
  · intro hs
    constructor
    · intro hlt
      simp [classifyDrag, hs, hlt]
    · intro hgt
      have : ¬ cand < p.avgPx := not_lt.mpr (le_of_lt hgt)
      simp [classifyDrag, hs, this]
  · intro hs
    constructor
    · intro hgt
      simp [classifyDrag, hs, hgt]
    · intro hlt
      have : ¬ p.avgPx < cand := not_lt.mpr (le_of_lt hlt)
      simp [classifyDrag, hs, this]
  · intro h
    simp [isShortPos, h]
  · intro h
    simp [isShortPos, h]
  · intro h hpos
    simp [isShortPos, h, not_lt.mpr hpos]
  · intro h hneg
    simp [isShortPos, h, hneg]

/-- C7 witness: the four concrete instances of the claim, by applying the
polarity theorem to a short position and a long position at entry 100 with
candidates 95 and 105. -/
theorem classifyDrag_polarity_witness :
    classifyDrag ⟨PosSide.short, 1, 100⟩ 95 = "tp" ∧
    classifyDrag ⟨PosSide.short, 1, 100⟩ 105 = "sl" ∧
    classifyDrag ⟨PosSide.long, 1, 100⟩ 105 = "tp" ∧
    classifyDrag ⟨PosSide.long, 1, 100⟩ 95 = "sl" := by
  have hshort1 := classifyDrag_polarity ⟨PosSide.short, 1, 100⟩ 95
  have hshort2 := classifyDrag_polarity ⟨PosSide.short, 1, 100⟩ 105
  have hlong1 := classifyDrag_polarity ⟨PosSide.long, 1, 100⟩ 105
  have hlong2 := classifyDrag_polarity ⟨PosSide.long, 1, 100⟩ 95
  refine ⟨?_, ?_, ?_, ?_⟩
  · exact (hshort1.1 (hshort1.2.2.1 rfl)).1 (by norm_num)
  · exact (hshort2.1 (hshort2.2.2.1 rfl)).2 (by norm_num)
  · exact (hlong1.2.1 (hlong1.2.2.2.1 rfl)).1 (by norm_num)
  · exact (hlong2.2.1 (hlong2.2.2.2.1 rfl)).2 (by norm_num)

/-- Canonical Order entity from types.ts, with cTime (a millisecond string
in the source, read back with parseInt) modelled as Nat. -/
structure Order where
  ordId : String
  algoId : Option String
  instId : String
  side : String
  ordType : String
  px : String
  triggerPx : Option String
  sz : String
  state : String
  cTime : Nat
deriving Repr, DecidableEq

/-- A raw standard pending-order record as consumed by fetchStandard inside
getOpenOrders. -/
structure RawStd where
  ordId : String
  instId : String
  side : String
  ordType : String
  px : String
  sz : String
  state : String
  cTime : Nat
deriving Repr, DecidableEq

/-- A raw algo pending-order record as consumed by fetchAlgo inside
getOpenOrders: the three trigger fields are optional and may carry the
sentinel "-1". -/
structure RawAlgo where
  algoId : String
  instId : String
  side : String
  ordType : String
  ordPx : Option String
  sz : String
  state : String
  cTime : Nat
  triggerPx : Option String
  slTriggerPx : Option String
  tpTriggerPx : Option String
deriving Repr, DecidableEq

/-- The guard used by fetchAlgo on each trigger field: the field is truthy
and different from the sentinel "-1". -/
def truthyPx (v : Option String) : Bool :=
  truthy v && !(jsOr v "" == "-1")

/-- The common canonical fields built by fetchAlgo for one raw algo
record. -/
def algoCommon (o : RawAlgo) : Order :=
  { ordId := o.algoId, algoId := some o.algoId, instId := o.instId,
    side := o.side, ordType := o.ordType, px := jsOr o.ordPx "-1",
    triggerPx := none, sz := o.sz, state := o.state, cTime := o.cTime }

/-- Algo decomposition from fetchAlgo: a primary trigger leg when triggerPx
is non-trivial, an sl leg with virtual id algoId-sl when slTriggerPx is
non-trivial, and a tp leg with virtual id algoId-tp when tpTriggerPx is
non-trivial. -/
def decomposeAlgo (o : RawAlgo) : List Order :=
  let common := algoCommon o
  (if truthyPx o.triggerPx then [{ common with triggerPx := o.triggerPx }] else [])
  ++ (if truthyPx o.slTriggerPx then [{ common with ordType := "sl", triggerPx := o.slTriggerPx, ordId := o.algoId ++ "-sl" }] else [])
  ++ (if truthyPx o.tpTriggerPx then [{ common with ordType := "tp", triggerPx := o.tpTriggerPx, ordId := o.algoId ++ "-tp" }] else [])

/-- The standard pending-order mapping from fetchStandard. -/
def mapStdOrder (o : RawStd) : Order :=
  { ordId := o.ordId, algoId := none, instId := o.instId, side := o.side,
    ordType := o.ordType, px := o.px, triggerPx := none, sz := o.sz,
    state := o.state, cTime := o.cTime }

/-- The descending-by-creation-time comparison realized by the comparator
(a, b) => parseInt(b.cTime) - parseInt(a.cTime) of getOpenOrders. -/
def cTimeGe (a b : Order) : Prop :=
  b.cTime ≤ a.cTime

instance : DecidableRel cTimeGe :=
  fun a b => Nat.decLe b.cTime a.cTime

instance : IsTotal Order cTimeGe :=
  ⟨fun a b => Nat.le_total b.cTime a.cTime⟩

instance : IsTrans Order cTimeGe :=
  ⟨fun _ _ _ h1 h2 => Nat.le_trans h2 h1⟩

/-- The pure aggregation core of getOpenOrders: map the standard records,
decompose the algo records, concatenate, and sort by descending creation
time. -/
def getOpenOrdersAggregate (std : List RawStd) (algos : List RawAlgo) :
    List Order :=
  List.insertionSort cTimeGe
    (std.map mapStdOrder ++ (algos.map decomposeAlgo).flatten)

theorem truthyPx_trivial (v : Option String)
    (h : v = none ∨ v = some "-1") : truthyPx v = false := by
  rcases h with h | h <;> simp [truthyPx, truthy, jsOr, h]

/-- C2: the decomposition of one raw algo record yields at most 3 canonical
orders; when all three trigger fields are non-trivial it yields exactly the
three legs with ids algoId, algoId-sl, algoId-tp in that sequence; when only
tpTriggerPx is non-trivial (the others "-1" or absent) it yields exactly one
order of type tp with id algoId-tp. -/
theorem decomposeAlgo_cases (o : RawAlgo) :
    (decomposeAlgo o).length ≤ 3 ∧
    (truthyPx o.triggerPx = true → truthyPx o.slTriggerPx = true →
      truthyPx o.tpTriggerPx = true →
      (decomposeAlgo o).length = 3 ∧
      (decomposeAlgo o).map Order.ordId
        = [o.algoId, o.algoId ++ "-sl", o.algoId ++ "-tp"]) ∧
    ((o.triggerPx = none ∨ o.triggerPx = some "-1") →
      (o.slTriggerPx = none ∨ o.slTriggerPx = some "-1") →
      truthyPx o.tpTriggerPx = true →
      (decomposeAlgo o).length = 1 ∧
      (decomposeAlgo o).map Order.ordType = ["tp"] ∧
      (decomposeAlgo o).map Order.ordId = [o.algoId ++ "-tp"]) := by
  refine ⟨?_, ?_, ?_⟩
  · cases htr : truthyPx o.triggerPx <;>
      cases hsl : truthyPx o.slTriggerPx <;>
        cases htp : truthyPx o.tpTriggerPx <;>
          simp [decomposeAlgo, htr, hsl, htp]
  · intro htr hsl htp
    simp [decomposeAlgo, algoCommon, htr, hsl, htp]
  · intro htr hsl htp
    simp [decomposeAlgo, algoCommon, truthyPx_trivial _ htr,
      truthyPx_trivial _ hsl, htp]

/-- A sample raw algo record with all three trigger fields non-trivial. -/
def algoAllLegs : RawAlgo :=
  { algoId := "A1", instId := "BTC-USDT-SWAP", side := "sell",
    ordType := "oco", ordPx := none, sz := "1", state := "live",
    cTime := 1700000000000, triggerPx := some "100",
    slTriggerPx := some "90", tpTriggerPx := some "110" }

/-- A sample raw algo record where only tpTriggerPx is set. -/
def algoOnlyTp : RawAlgo :=
  { algoId := "A2", instId := "BTC-USDT-SWAP", side := "sell",
    ordType := "conditional", ordPx := none, sz := "1", state := "live",
    cTime := 1700000000001, triggerPx := none,
    slTriggerPx := some "-1", tpTriggerPx := some "110" }

/-- C2 witness: a record with all three trigger fields set decomposes into
the three legs, and a record with only tpTriggerPx set decomposes into the
single tp leg. -/
theorem decomposeAlgo_cases_witness :
    (decomposeAlgo algoAllLegs).map Order.ordId = ["A1", "A1-sl", "A1-tp"] ∧
    (decomposeAlgo algoOnlyTp).map Order.ordType = ["tp"] := by
  have h1 := decomposeAlgo_cases algoAllLegs
  have h2 := decomposeAlgo_cases algoOnlyTp
  exact ⟨(h1.2.1 (by decide) (by decide) (by decide)).2,
    (h2.2.2 (Or.inl rfl) (Or.inr rfl) (by decide)).2.1⟩

/-- A sample raw algo record with an sl leg and a tp leg only. -/
def algoSlTp : RawAlgo :=
  { algoId := "A1", instId := "BTC-USDT-SWAP", side := "sell",
    ordType := "oco", ordPx := none, sz := "1", state := "live",
    cTime := 1700000000000, triggerPx := none,
    slTriggerPx := some "90", tpTriggerPx := some "110" }

/-- The sl leg of the decomposition of algoSlTp. -/
def algoSlLeg : Order :=
  { ordId := "A1-sl", algoId := some "A1", instId := "BTC-USDT-SWAP",
    side := "sell", ordType := "sl", px := "-1", triggerPx := some "90",
    sz := "1", state := "live", cTime := 1700000000000 }

/-- The tp leg of the decomposition of algoSlTp. -/
def algoTpLeg : Order :=
  { ordId := "A1-tp", algoId := some "A1", instId := "BTC-USDT-SWAP",
    side := "sell", ordType := "tp", px := "-1", triggerPx := some "110",
    sz := "1", state := "live", cTime := 1700000000000 }

/-- C4 counterexample: an oco algo record with both an sl and a tp leg
decomposes into two orders sharing one creation time, so the list returned
by the aggregation is not sorted strictly descending by cTime. -/
theorem getOpenOrders_not_strictly_sorted :
    ¬ List.Sorted (fun a b => b.cTime < a.cTime)
      (getOpenOrdersAggregate [] [algoSlTp]) := by
  intro h
  have heq : getOpenOrdersAggregate [] [algoSlTp] = [algoSlLeg, algoTpLeg] := rfl
  rw [heq] at h
  have hrel := List.rel_of_sorted_cons h algoTpLeg (List.mem_singleton.mpr rfl)
  have hlt : (1700000000000 : Nat) < 1700000000000 := hrel
  exact lt_irrefl _ hlt

/-- C4 amended: for every mixed input of standard pending orders and
decomposed algo orders, the list returned by the getOpenOrders aggregation
is sorted descending by creation time, non-strictly: orders sharing a
creation time (such as the legs decomposed from one algo record) may be
adjacent. -/
theorem getOpenOrders_sorted_desc (std : List RawStd)
    (algos : List RawAlgo) :
    List.Sorted cTimeGe (getOpenOrdersAggregate std algos) :=
  List.sorted_insertionSort cTimeGe
    (std.map mapStdOrder ++ (algos.map decomposeAlgo).flatten)

/-- Amend request from types.ts: sparse patch, absent fields are omitted. -/
structure AmendOrderRequest where
  instId : String
  ordId : Option String
  algoId : Option String
  newSz : Option String
  newPx : Option String
  newTpTriggerPx : Option String
  newTpOrdPx : Option String
  newSlTriggerPx : Option String
  newSlOrdPx : Option String
  newTriggerPx : Option String
deriving Repr, DecidableEq

/-- Order placement request from types.ts (the fields placeOrder reads). -/
structure OrderRequest where
  instId : String
  tdMode : String
  side : String
  ordType : String
  sz : String
  px : Option String
  triggerPx : Option String
  posSide : Option String
deriving Repr, DecidableEq

/-- The first element of the data array of a placement response. -/
structure PlaceRespItem where
  sCode : String
  sMsg : String
  ordId : Option String
  algoId : Option String
deriving Repr, DecidableEq

/-- A body field included only when the value is truthy, modelling the
conditional assignments of the sparse amend patch. -/
def optField (k : String) (v : Option String) : List (String × String) :=
  if truthy v then [(k, jsOr v "")] else []

/-- A body field carrying an optional value directly: an absent value is
dropped (JSON.stringify omits undefined properties). -/
def optFieldRaw (k : String) (v : Option String) : List (String × String) :=
  match v with
  | some s => [(k, s)]
  | none => []

/-- OKXService.cancelOrder from the part_002 revision: silent return without
credentials, Missing Instrument ID on an empty instId, the algo endpoint
when algoId is truthy, the standard endpoint when ordId is truthy, and a
Missing Order ID error when both identifiers are absent. -/
def cancelOrder_v2 (cfg : ApiConfig) (instId : String)
    (ordId algoId : Option String) (fetchResult : Except String Unit) :
    Eff Unit :=
  if !(hasKeys cfg) then ⟨[], Except.ok ()⟩
  else if instId == "" then ⟨[], Except.error "Missing Instrument ID"⟩
  else if truthy algoId then
    requestEff cfg "POST" "/api/v5/trade/cancel-algos"
      (some [[("instId", instId), ("algoId", jsOr algoId "")]]) fetchResult
  else if truthy ordId then
    requestEff cfg "POST" "/api/v5/trade/cancel-order"
      (some [("instId", instId), ("ordId", jsOr ordId "")]) fetchResult
  else ⟨[], Except.error "Missing Order ID"⟩

/-- OKXService.cancelOrder from the part_003 revision: same routing, but a
call without any identifier silently returns instead of throwing. -/
def cancelOrder_v3 (cfg : ApiConfig) (instId : String)
    (ordId algoId : Option String) (fetchResult : Except String Unit) :
    Eff Unit :=
  if !(hasKeys cfg) then ⟨[], Except.ok ()⟩
  else if truthy algoId then
    requestEff cfg "POST" "/api/v5/trade/cancel-algos"
      (some [[("instId", instId), ("algoId", jsOr algoId "")]]) fetchResult
  else if truthy ordId then
    requestEff cfg "POST" "/api/v5/trade/cancel-order"
      (some [("instId", instId), ("ordId", jsOr ordId "")]) fetchResult
  else ⟨[], Except.ok ()⟩

/-- The batch-shaped algo amend body: identifiers plus the sparse fields. -/
def amendAlgoBody (req : AmendOrderRequest) : List (String × String) :=
  [("instId", req.instId), ("algoId", jsOr req.algoId "")]
  ++ optField "newSz" req.newSz
  ++ optField "newTpTriggerPx" req.newTpTriggerPx
  ++ optField "newTpOrdPx" req.newTpOrdPx
  ++ optField "newSlTriggerPx" req.newSlTriggerPx
  ++ optField "newSlOrdPx" req.newSlOrdPx
  ++ optField "newTriggerPx" req.newTriggerPx

/-- The standard amend body: identifiers plus the sparse fields. -/
def amendStdBody (req : AmendOrderRequest) : List (String × String) :=
  [("instId", req.instId), ("ordId", jsOr req.ordId "")]
  ++ optField "newSz" req.newSz
  ++ optField "newPx" req.newPx

/-- OKXService.amendOrder from the part_002 revision. -/
def amendOrder_v2 (cfg : ApiConfig) (req : AmendOrderRequest)
    (fetchResult : Except String Unit) : Eff Unit :=
  if !(hasKeys cfg) then ⟨[], Except.ok ()⟩
  else if req.instId == "" then ⟨[], Except.error "Missing Instrument ID"⟩
  else if truthy req.algoId then
    requestEff cfg "POST" "/api/v5/trade/amend-algos"
      (some [amendAlgoBody req]) fetchResult
  else if truthy req.ordId then
    requestEff cfg "POST" "/api/v5/trade/amend-order"
      (some (amendStdBody req)) fetchResult
  else ⟨[], Except.error "Missing Order ID"⟩

/-- OKXService.amendOrder from the part_003 revision: no instId check and a
silent return when both identifiers are absent. -/
def amendOrder_v3 (cfg : ApiConfig) (req : AmendOrderRequest)
    (fetchResult : Except String Unit) : Eff Unit :=
  if !(hasKeys cfg) then ⟨[], Except.ok ()⟩
  else if truthy req.algoId then
    requestEff cfg "POST" "/api/v5/trade/amend-algos"
      (some [amendAlgoBody req]) fetchResult
  else if truthy req.ordId then
    requestEff cfg "POST" "/api/v5/trade/amend-order"
      (some (amendStdBody req)) fetchResult
  else ⟨[], Except.ok ()⟩

/-- OKXService.setLeverage from the part_002 revision: silent return without
credentials; a request failure is logged and rethrown. -/
def setLeverage_v2 (cfg : ApiConfig) (instId lever mgnMode : String)
    (fetchResult : Except String Unit) : Eff Unit :=
  if !(hasKeys cfg) then ⟨[], Except.ok ()⟩
  else
    requestEff cfg "POST" "/api/v5/account/set-leverage"
      (some [("instId", instId), ("lever", lever), ("mgnMode", mgnMode)])
      fetchResult

/-- OKXService.setLeverage from the part_003 revision: as in part_002 but a
request failure is swallowed. -/
def setLeverage_v3 (cfg : ApiConfig) (instId lever mgnMode : String)
    (fetchResult : Except String Unit) : Eff Unit :=
  if !(hasKeys cfg) then ⟨[], Except.ok ()⟩
  else
    let r := requestEff cfg "POST" "/api/v5/account/set-leverage"
      (some [("instId", instId), ("lever", lever), ("mgnMode", mgnMode)])
      fetchResult
    ⟨r.calls, Except.ok ()⟩

/-- The payload construction of OKXService.placeOrder, shared by both
revisions: base fields, posSide when supplied, then either the conditional
algo fields or the standard fields with px only for non-market orders. -/
def placeOrderPayload (o : OrderRequest) : List (String × String) :=
  [("instId", o.instId), ("tdMode", o.tdMode), ("side", o.side),
   ("sz", o.sz)]
  ++ optField "posSide" o.posSide
  ++ (if o.ordType == "conditional" then
        [("ordType", "conditional")] ++ optFieldRaw "slTriggerPx" o.triggerPx
          ++ [("slOrdPx", o.px.getD "-1")]
      else
        [("ordType", o.ordType)]
          ++ (if !(o.ordType == "market") && truthy o.px then
                [("px", jsOr o.px "")]
              else []))

/-- The response handling of placeOrder, shared by both revisions: a missing
data item is an Order failed error, a non-zero sCode surfaces sMsg (or the
placement-failed fallback), and a success returns ordId or algoId. -/
def placeOrderResult (r : Except String (Option PlaceRespItem)) :
    Except String String :=
  match r with
  | Except.error e => Except.error e
  | Except.ok none => Except.error "Order failed"
  | Except.ok (some d) =>
      if !(d.sCode == "0") then
        Except.error (jsOr (some d.sMsg) "Order placement failed")
      else Except.ok (jsOr d.ordId (jsOr d.algoId ""))

/-- OKXService.placeOrder from the part_002 revision: fails fast without
credentials, routes conditional orders to the algo endpoint. -/
def placeOrder_v2 (cfg : ApiConfig) (o : OrderRequest)
    (fetchResult : Except String (Option PlaceRespItem)) : Eff String :=
  if !(hasKeys cfg) then
    ⟨[], Except.error "Please configure API Keys in Settings"⟩
  else
    let endpoint := if o.ordType == "conditional" then
      "/api/v5/trade/order-algo" else "/api/v5/trade/order"
    let r := requestEff cfg "POST" endpoint (some (placeOrderPayload o))
      fetchResult
    ⟨r.calls, placeOrderResult r.result⟩

/-- OKXService.placeOrder from the part_003 revision: identical apart from
the wording of the missing-credentials error. -/
def placeOrder_v3 (cfg : ApiConfig) (o : OrderRequest)
    (fetchResult : Except String (Option PlaceRespItem)) : Eff String :=
  if !(hasKeys cfg) then ⟨[], Except.error "Please configure API Keys"⟩
  else
    let endpoint := if o.ordType == "conditional" then
      "/api/v5/trade/order-algo" else "/api/v5/trade/order"
    let r := requestEff cfg "POST" endpoint (some (placeOrderPayload o))
      fetchResult
    ⟨r.calls, placeOrderResult r.result⟩

/-- A complete credential triple used by concrete instantiations. -/
def cfgFull : ApiConfig :=
  ⟨"key", "sec", "pass", none⟩

/-- C5 counterexample: with complete credentials, a non-empty instId and
both identifiers absent, the part_003 cancelOrder returns successfully with
no network call, instead of failing with the Missing Order ID error the
claim requires. -/
theorem cancel_missing_id_silent_counterexample :
    (cancelOrder_v3 cfgFull "BTC-USDT" none none (Except.ok ())).result
      = Except.ok () ∧
    (cancelOrder_v3 cfgFull "BTC-USDT" none none (Except.ok ())).calls
      = [] ∧
    (Except.ok () : Except String Unit) ≠ Except.error "Missing Order ID" := by
  refine ⟨rfl, rfl, ?_⟩
  intro h
  exact Except.noConfusion h

/-- C5 amended: with complete credentials and both identifiers absent, the
part_002 cancelOrder and amendOrder (on a non-empty instrument id) fail with
the Missing Order ID error and issue no network call, while the part_003
revisions silently return success, also issuing no network call. -/
theorem missing_order_id_behaviour (cfg : ApiConfig) (instId : String)
    (ordId algoId : Option String) (req : AmendOrderRequest)
    (fr1 fr2 fr3 fr4 : Except String Unit)
    (hk : hasKeys cfg = true)
    (hinst : ¬ (instId = ""))
    (hord : truthy ordId = false) (halgo : truthy algoId = false)
    (hrinst : ¬ (req.instId = ""))
    (hrord : truthy req.ordId = false) (hralgo : truthy req.algoId = false) :
    cancelOrder_v2 cfg instId ordId algoId fr1
      = ⟨[], Except.error "Missing Order ID"⟩ ∧
    amendOrder_v2 cfg req fr2 = ⟨[], Except.error "Missing Order ID"⟩ ∧
    cancelOrder_v3 cfg instId ordId algoId fr3 = ⟨[], Except.ok ()⟩ ∧
    amendOrder_v3 cfg req fr4 = ⟨[], Except.ok ()⟩ := by
  refine ⟨?_, ?_, ?_, ?_⟩
  · simp [cancelOrder_v2, hk, hord, halgo, hinst]
  · simp [amendOrder_v2, hk, hrord, hralgo, hrinst]
  · simp [cancelOrder_v3, hk, hord, halgo]
  · simp [amendOrder_v3, hk, hrord, hralgo]

/-- An amend request carrying no order identifier. -/
def amendReqNoIds : AmendOrderRequest :=
  { instId := "BTC-USDT", ordId := none, algoId := none, newSz := none,
    newPx := some "101", newTpTriggerPx := none, newTpOrdPx := none,
    newSlTriggerPx := none, newSlOrdPx := none, newTriggerPx := none }

/-- C5 witness: the four behaviours at complete credentials, instrument
BTC-USDT and absent identifiers. -/
theorem missing_order_id_behaviour_witness :
    cancelOrder_v2 cfgFull "BTC-USDT" none none (Except.ok ())
      = ⟨[], Except.error "Missing Order ID"⟩ ∧
    amendOrder_v2 cfgFull amendReqNoIds (Except.ok ())
      = ⟨[], Except.error "Missing Order ID"⟩ ∧
    cancelOrder_v3 cfgFull "BTC-USDT" none none (Except.ok ())
      = ⟨[], Except.ok ()⟩ ∧
    amendOrder_v3 cfgFull amendReqNoIds (Except.ok ())
      = ⟨[], Except.ok ()⟩ :=
  missing_order_id_behaviour cfgFull "BTC-USDT" none none amendReqNoIds
    (Except.ok ()) (Except.ok ()) (Except.ok ()) (Except.ok ())
    (by decide) (by decide) (by decide) (by decide)
    (by decide) (by decide) (by decide)

/-- C9: without complete credentials, cancelOrder, amendOrder and
setLeverage in both revisions return success with no network call, while
placeOrder in both revisions throws its configure-keys error, also before
any network call; a caller with missing keys cannot distinguish a skipped
cancel, amend or leverage-set from a successful one. -/
theorem mutation_gate_behaviour (cfg : ApiConfig)
    (instId lever mgnMode : String) (ordId algoId : Option String)
    (req : AmendOrderRequest) (o : OrderRequest)
    (fr1 fr2 fr3 fr4 fr5 fr6 : Except String Unit)
    (fro1 fro2 : Except String (Option PlaceRespItem))
    (hk : hasKeys cfg = false) :
    cancelOrder_v2 cfg instId ordId algoId fr1 = ⟨[], Except.ok ()⟩ ∧
    amendOrder_v2 cfg req fr2 = ⟨[], Except.ok ()⟩ ∧
    setLeverage_v2 cfg instId lever mgnMode fr3 = ⟨[], Except.ok ()⟩ ∧
    cancelOrder_v3 cfg instId ordId algoId fr4 = ⟨[], Except.ok ()⟩ ∧
    amendOrder_v3 cfg req fr5 = ⟨[], Except.ok ()⟩ ∧
    setLeverage_v3 cfg instId lever mgnMode fr6 = ⟨[], Except.ok ()⟩ ∧
    placeOrder_v2 cfg o fro1
      = ⟨[], Except.error "Please configure API Keys in Settings"⟩ ∧
    placeOrder_v3 cfg o fro2
      = ⟨[], Except.error "Please configure API Keys"⟩ := by
  refine ⟨?_, ?_, ?_, ?_, ?_, ?_, ?_, ?_⟩
  · simp [cancelOrder_v2, hk]
  · simp [amendOrder_v2, hk]
  · simp [setLeverage_v2, hk]
  · simp [cancelOrder_v3, hk]
  · simp [amendOrder_v3, hk]
  · simp [setLeverage_v3, hk]
  · simp [placeOrder_v2, hk]
  · simp [placeOrder_v3, hk]

/-- A credential triple with an empty secret. -/
def cfgNoSecret : ApiConfig :=
  ⟨"key", "", "pass", none⟩

/-- A sample limit order request. -/
def sampleOrderReq : OrderRequest :=
  { instId := "BTC-USDT", tdMode := "cash", side := "buy",
    ordType := "limit", sz := "1", px := some "100", triggerPx := none,
    posSide := none }

/-- C9 witness: the eight behaviours at a credential triple whose secret is
empty. -/
theorem mutation_gate_behaviour_witness :
    cancelOrder_v2 cfgNoSecret "BTC-USDT" (some "1") none (Except.ok ())
      = ⟨[], Except.ok ()⟩ ∧
    amendOrder_v2 cfgNoSecret amendReqNoIds (Except.ok ())
      = ⟨[], Except.ok ()⟩ ∧
    setLeverage_v2 cfgNoSecret "BTC-USDT" "10" "cross" (Except.ok ())
      = ⟨[], Except.ok ()⟩ ∧
    cancelOrder_v3 cfgNoSecret "BTC-USDT" (some "1") none (Except.ok ())
      = ⟨[], Except.ok ()⟩ ∧
    amendOrder_v3 cfgNoSecret amendReqNoIds (Except.ok ())
      = ⟨[], Except.ok ()⟩ ∧
    setLeverage_v3 cfgNoSecret "BTC-USDT" "10" "cross" (Except.ok ())
      = ⟨[], Except.ok ()⟩ ∧
    placeOrder_v2 cfgNoSecret sampleOrderReq (Except.ok none)
      = ⟨[], Except.error "Please configure API Keys in Settings"⟩ ∧
    placeOrder_v3 cfgNoSecret sampleOrderReq (Except.ok none)
      = ⟨[], Except.error "Please configure API Keys"⟩ :=
  mutation_gate_behaviour cfgNoSecret "BTC-USDT" "10" "cross" (some "1")
    none amendReqNoIds sampleOrderReq (Except.ok ()) (Except.ok ())
    (Except.ok ()) (Except.ok ()) (Except.ok ()) (Except.ok ())
    (Except.ok none) (Except.ok none) (by decide)

/-- Asset history point from types.ts: a millisecond timestamp (stored as a
string of Date.now and read back with parseInt, modelled as Nat) and the
total USD equity (parseFloat arithmetic, modelled as Rat). -/
structure AssetHistory where
  ts : Nat
  totalEq : ℚ
deriving Repr, DecidableEq

/-- Asset balance row from types.ts; eqUsd is consumed with parseFloat and
modelled as Rat. -/
structure AssetBalance where
  ccy : String
  availBal : String
  frozenBal : String
  eqUsd : ℚ
deriving Repr, DecidableEq

/-- OKXService.recordAssetHistory (identical in both revisions): a no-op on
an empty balance list; otherwise sum the USD equities, and append a point at
the current time only when the series is empty or its most recent point is
more than one hour (3600000 ms) old, evicting from the front down to 1000
points; the returned flag says whether a background gist sync was started,
which happens exactly when a point was appended and a github token is
configured. -/
def recordAssetHistory (hasToken : Bool) (now : Nat)
    (balances : List AssetBalance) (history : List AssetHistory) :
    List AssetHistory × Bool :=
  if balances.length = 0 then (history, false)
  else
    let totalEq := (balances.map AssetBalance.eqUsd).sum
    let point : AssetHistory := ⟨now, totalEq⟩
    let shouldAppend :=
      match history.getLast? with
      | none => true
      | some last => decide (3600000 < now - last.ts)
    if shouldAppend then
      let h1 := history ++ [point]
      let h2 := if 1000 < h1.length then h1.drop (h1.length - 1000) else h1
      (h2, hasToken)
    else (history, false)

/-- The relation between successive stored points: strictly ascending and
more than one hour apart. -/
def histGap (a b : AssetHistory) : Prop :=
  a.ts < b.ts ∧ a.ts + 3600000 < b.ts

instance : DecidableRel histGap := fun a b => by
  unfold histGap
  infer_instance

/-- The stored-series invariant of the asset-history recorder: pairwise
strictly ascending timestamps more than one hour apart, and at most 1000
points. -/
def histInv (h : List AssetHistory) : Prop :=
  List.Pairwise histGap h ∧ h.length ≤ 1000

theorem mem_rel_getLast {α : Type} {R : α → α → Prop} {l : List α} {p a : α}
    (hp : l.getLast? = some p) (hpw : List.Pairwise R l) (ha : a ∈ l) :
    a = p ∨ R a p := by
  have hne : l ≠ [] := by
    intro h
    rw [h] at hp
    exact Option.noConfusion hp
  have hpeq : l.getLast hne = p := by
    have hgl := List.getLast?_eq_getLast l hne
    rw [hp] at hgl
    exact (Option.some_inj.mp hgl).symm
  have hdecomp : l.dropLast ++ [p] = l := by
    rw [← hpeq]
    exact List.dropLast_append_getLast hne
  rw [← hdecomp] at hpw ha
  rcases List.mem_append.mp ha with hmem | hmem
  · exact Or.inr ((List.pairwise_append.mp hpw).2.2 a hmem p
      (List.mem_singleton.mpr rfl))
  · exact Or.inl (List.mem_singleton.mp hmem)

theorem recordAssetHistory_noop_within_hour (hasToken : Bool) (now : Nat)
    (balances : List AssetBalance) (history : List AssetHistory)
    (p : AssetHistory) (hp : history.getLast? = some p)
    (hrecent : now - p.ts ≤ 3600000) :
    recordAssetHistory hasToken now balances history = (history, false) := by
  unfold recordAssetHistory
  by_cases hb : balances.length = 0
  · simp [hb]
  · simp [hb, hp, Nat.not_lt.mpr hrecent]

theorem recordAssetHistory_append_fst (hasToken : Bool) (now : Nat)
    (balances : List AssetBalance) (history : List AssetHistory)
    (hb : balances.length ≠ 0)
    (happend : history.getLast? = none ∨
      ∃ p, history.getLast? = some p ∧ 3600000 < now - p.ts) :
    (recordAssetHistory hasToken now balances history).1 =
      if 1000 < history.length + 1 then
        (history ++ [(⟨now, (balances.map AssetBalance.eqUsd).sum⟩
          : AssetHistory)]).drop (history.length + 1 - 1000)
      else history
        ++ [(⟨now, (balances.map AssetBalance.eqUsd).sum⟩ : AssetHistory)] := by
  unfold recordAssetHistory
  rcases happend with hnone | ⟨p, hp, hcond⟩
  · simp [hb, hnone]
  · simp [hb, hp, hcond]

/-- C3: the recorder preserves the stored-series invariant (strictly
ascending timestamps, consecutive points more than one hour apart, at most
1000 points); a second recording within one hour of the latest point leaves
the series unchanged; and recording onto a full 1000-point series more than
one hour after the latest point evicts the oldest point, leaving exactly
1000 points ending with the new one. -/
theorem recordAssetHistory_invariant (hasToken : Bool) (now : Nat)
    (balances : List AssetBalance) (history : List AssetHistory) :
    (histInv history →
      histInv (recordAssetHistory hasToken now balances history).1) ∧
    (∀ p, history.getLast? = some p → now - p.ts ≤ 3600000 →
      recordAssetHistory hasToken now balances history = (history, false)) ∧
    (balances.length ≠ 0 → history.length = 1000 →
      ∀ p, history.getLast? = some p → 3600000 < now - p.ts →
      (recordAssetHistory hasToken now balances history).1
        = history.drop 1
            ++ [⟨now, (balances.map AssetBalance.eqUsd).sum⟩] ∧
      (recordAssetHistory hasToken now balances history).1.length = 1000) := by
  refine ⟨?_, ?_, ?_⟩
  · intro hinv
    by_cases hb : balances.length = 0
    · simpa [recordAssetHistory, hb] using hinv
    · cases hlast : history.getLast? with
      | none =>
          have hnil : history = [] := List.getLast?_eq_none_iff.mp hlast
          subst hnil
          simp [recordAssetHistory, hb, histInv]
      | some last =>
          by_cases hcond : 3600000 < now - last.ts
          · have hpw : List.Pairwise histGap
                (history ++ [⟨now, (balances.map AssetBalance.eqUsd).sum⟩]) := by
              refine List.pairwise_append.mpr
                ⟨hinv.1, List.pairwise_singleton _ _, ?_⟩
              intro a ha b hbmem
              have hbeq : b = ⟨now, (balances.map AssetBalance.eqUsd).sum⟩ :=
                List.mem_singleton.mp hbmem
              subst hbeq
              have hgoal : a.ts < now ∧ a.ts + 3600000 < now := by
                rcases mem_rel_getLast hlast hinv.1 ha with heq2 | hrel
                · subst heq2
                  omega
                · rcases hrel with ⟨h1, h2⟩
                  omega
              exact hgoal
            have heq := recordAssetHistory_append_fst hasToken now balances
              history hb (Or.inr ⟨last, hlast, hcond⟩)
            rw [heq]
            by_cases hlen : 1000 < history.length + 1
            · rw [if_pos hlen]
              constructor
              · exact List.Pairwise.sublist (List.drop_sublist _ _) hpw
              · rw [List.length_drop]
                simp only [List.length_append, List.length_singleton]
                omega
            · rw [if_neg hlen]
              constructor
              · exact hpw
              · simp only [List.length_append, List.length_singleton]
                omega
          · have hres := recordAssetHistory_noop_within_hour hasToken now
              balances history last hlast (Nat.not_lt.mp hcond)
            rw [hres]
            exact hinv
  · intro p hp hrecent
    exact recordAssetHistory_noop_within_hour hasToken now balances history
      p hp hrecent
  · intro hb hlen p hp hcond
    have heq := recordAssetHistory_append_fst hasToken now balances
      history hb (Or.inr ⟨p, hp, hcond⟩)
    have hone : history.length + 1 - 1000 = 1 := by omega
    have hdrop : (history ++ [(⟨now, (balances.map AssetBalance.eqUsd).sum⟩
        : AssetHistory)]).drop 1
        = history.drop 1 ++ [⟨now, (balances.map AssetBalance.eqUsd).sum⟩] :=
      List.drop_append_of_le_length (by omega)
    rw [heq, if_pos (by omega), hone, hdrop]
    constructor
    · rfl
    · simp only [List.length_append, List.length_drop,
        List.length_singleton]
      omega

/-- A sample non-empty balance list. -/
def balSample : List AssetBalance :=
  [⟨"USDT", "5", "0", 5⟩]

/-- A small history satisfying the recorder invariant. -/
def histSmall : List AssetHistory :=
  [⟨0, 1⟩, ⟨4000000, 2⟩]

/-- A full 1000-point history with points 4000000 ms apart. -/
def histC : List AssetHistory :=
  (List.range 1000).map (fun i => ⟨i * 4000000, 1⟩)

/-- C3 witness: invariant preservation on a small series, the same-hour
no-op at 5000000 ms (one million ms after the latest point), and eviction on
the full 1000-point series. -/
theorem recordAssetHistory_invariant_witness :
    histInv (recordAssetHistory false 8000001 balSample histSmall).1 ∧
    recordAssetHistory false 5000000 balSample histSmall
      = (histSmall, false) ∧
    (recordAssetHistory false 3999600002 balSample histC).1
      = histC.drop 1
          ++ [⟨3999600002, (balSample.map AssetBalance.eqUsd).sum⟩] ∧
    (recordAssetHistory false 3999600002 balSample histC).1.length = 1000 := by
  have h1 := recordAssetHistory_invariant false 8000001 balSample histSmall
  have h2 := recordAssetHistory_invariant false 5000000 balSample histSmall
  have h3 := recordAssetHistory_invariant false 3999600002 balSample histC
  have hinvSmall : histInv histSmall := by
    constructor
    · decide
    · decide
  have hlast : histSmall.getLast? = some ⟨4000000, 2⟩ := rfl
  have hlenC : histC.length = 1000 := by
    simp [histC]
  have hlastC : histC.getLast? = some ⟨3996000000, 1⟩ := by
    simp [histC, List.getLast?_eq_getElem?, List.getElem?_map,
      List.getElem?_range]
  have h3c := h3.2.2 (by decide) hlenC ⟨3996000000, 1⟩ hlastC (by decide)
  exact ⟨h1.1 hinvSmall, h2.2.1 ⟨4000000, 2⟩ hlast (by decide),
    h3c.1, h3c.2⟩

/-- OKXService.getBalances: an empty result without credentials (and no
recording at all); otherwise the mapped rows of the first data item, an
empty list when the fetch fails or the data array is empty, and in every
credentialed case the recorder runs on the computed balances.  The result
pairs the balances with the recorder outcome (new series, sync flag). -/
def getBalances (hasToken : Bool) (cfg : ApiConfig) (now : Nat)
    (resp : Except String (Option (List AssetBalance)))
    (history : List AssetHistory) :
    List AssetBalance × (List AssetHistory × Bool) :=
  if !(hasKeys cfg) then ([], (history, false))
  else
    let balances :=
      match resp with
      | Except.ok (some details) => details
      | Except.ok none => []
      | Except.error _ => []
    (balances, recordAssetHistory hasToken now balances history)

/-- C10: when the balance fetch fails, or returns no data item, or returns
an empty detail list, getBalances leaves the recorder a no-op: the persisted
series is unchanged and no remote sync is triggered, so no zero-equity point
is ever recorded from a failed or empty balance call. -/
theorem getBalances_empty_no_record (hasToken : Bool) (cfg : ApiConfig)
    (now : Nat) (resp : Except String (Option (List AssetBalance)))
    (history : List AssetHistory)
    (hresp : (∃ e, resp = Except.error e) ∨ resp = Except.ok none ∨
      resp = Except.ok (some [])) :
    (getBalances hasToken cfg now resp history).2 = (history, false) := by
  unfold getBalances
  by_cases hk : hasKeys cfg
  · rcases hresp with ⟨e, he⟩ | he | he <;> subst he <;>
      simp [hk, recordAssetHistory]
  · simp [hk]

/-- C10 witness: a failed fetch with complete credentials leaves the series
untouched and triggers no sync. -/
theorem getBalances_empty_no_record_witness :
    (getBalances true cfgFull 8000001
      (Except.error "Network Error: Possible CORS issue or Connection failed.")
      histSmall).2 = (histSmall, false) :=
  getBalances_empty_no_record true cfgFull 8000001
    (Except.error "Network Error: Possible CORS issue or Connection failed.")
    histSmall (Or.inl ⟨_, rfl⟩)

/-- One step of the GitHubService.syncData merge map: setting a point under
its timestamp key replaces the value of an existing key in place (JS Map
keeps first-insertion order) and appends a new key at the end. -/
def upsert (m : List AssetHistory) (p : AssetHistory) : List AssetHistory :=
  if m.any (fun q => q.ts == p.ts) then
    m.map (fun q => if q.ts == p.ts then p else q)
  else m ++ [p]

/-- Ascending timestamp comparison realized by the merge sort comparator
(a, b) => parseInt(a.ts) - parseInt(b.ts). -/
def tsLe (a b : AssetHistory) : Prop :=
  a.ts ≤ b.ts

instance : DecidableRel tsLe :=
  fun a b => Nat.decLe a.ts b.ts

instance : IsTotal AssetHistory tsLe :=
  ⟨fun a b => Nat.le_total a.ts b.ts⟩

instance : IsTrans AssetHistory tsLe :=
  ⟨fun _ _ _ h1 h2 => Nat.le_trans h1 h2⟩

/-- The merge logic of GitHubService.syncData: insert the remote points into
the map, then the local points (local wins on a shared timestamp key), and
sort the values ascending by timestamp. -/
def mergeSeries (remoteData locData : List AssetHistory) :
    List AssetHistory :=
  List.insertionSort tsLe (locData.foldl upsert (remoteData.foldl upsert []))

theorem upsert_of_fresh (m : List AssetHistory) (p : AssetHistory)
    (hfresh : ∀ q ∈ m, q.ts ≠ p.ts) : upsert m p = m ++ [p] := by
  unfold upsert
  rw [if_neg]
  intro hany
  rcases List.any_eq_true.mp hany with ⟨q, hq, hqts⟩
  exact hfresh q hq (by simpa using hqts)

theorem foldl_upsert_of_distinct (l m : List AssetHistory)
    (hne : List.Pairwise (fun a b => a.ts ≠ b.ts) (m ++ l)) :
    l.foldl upsert m = m ++ l := by
  induction l generalizing m with
  | nil => simp
  | cons p t ih =>
      have hfresh : ∀ q ∈ m, q.ts ≠ p.ts := by
        intro q hq
        exact (List.pairwise_append.mp hne).2.2 q hq p (List.mem_cons_self p t)
      have hstep : upsert m p = m ++ [p] := upsert_of_fresh m p hfresh
      have hassoc : (m ++ [p]) ++ t = m ++ (p :: t) := by
        rw [List.append_assoc, List.singleton_append]
      have hne2 : List.Pairwise (fun a b => a.ts ≠ b.ts) ((m ++ [p]) ++ t) := by
        rw [hassoc]
        exact hne
      calc (p :: t).foldl upsert m = t.foldl upsert (upsert m p) := rfl
        _ = t.foldl upsert (m ++ [p]) := by rw [hstep]
        _ = (m ++ [p]) ++ t := ih (m ++ [p]) hne2
        _ = m ++ (p :: t) := hassoc

theorem eq_of_ts_eq_of_pairwise_ne {h : List AssetHistory}
    (hpw : List.Pairwise (fun a b => a.ts ≠ b.ts) h)
    {p q : AssetHistory} (hp : p ∈ h) (hq : q ∈ h) (hts : p.ts = q.ts) :
    p = q := by
  induction h with
  | nil => cases hp
  | cons a t ih =>
      rcases List.mem_cons.mp hp with hp1 | hp1 <;>
        rcases List.mem_cons.mp hq with hq1 | hq1
      · rw [hp1, hq1]
      · exfalso
        subst hp1
        exact (List.pairwise_cons.mp hpw).1 q hq1 hts
      · exfalso
        subst hq1
        exact (List.pairwise_cons.mp hpw).1 p hp1 hts.symm
      · exact ih (List.pairwise_cons.mp hpw).2 hp1 hq1

theorem upsert_self_mem {h : List AssetHistory}
    (hpw : List.Pairwise (fun a b => a.ts ≠ b.ts) h)
    {p : AssetHistory} (hp : p ∈ h) : upsert h p = h := by
  unfold upsert
  rw [if_pos (List.any_eq_true.mpr ⟨p, hp, by simp⟩)]
  have hmap : ∀ q ∈ h, (if q.ts == p.ts then p else q) = q := by
    intro q hq
    by_cases hts : q.ts = p.ts
    · rw [if_pos (by simpa using hts)]
      exact eq_of_ts_eq_of_pairwise_ne hpw hp hq hts.symm
    · rw [if_neg (by simpa using hts)]
  calc h.map (fun q => if q.ts == p.ts then p else q) = h.map id :=
        List.map_congr_left hmap
    _ = h := List.map_id h

theorem foldl_upsert_fixed (l m : List AssetHistory)
    (hfix : ∀ p ∈ l, upsert m p = m) : l.foldl upsert m = m := by
  induction l with
  | nil => rfl
  | cons p t ih =>
      have hstep : upsert m p = m := hfix p (List.mem_cons_self p t)
      calc (p :: t).foldl upsert m = t.foldl upsert (upsert m p) := rfl
        _ = t.foldl upsert m := by rw [hstep]
        _ = m := ih (fun q hq => hfix q (List.mem_cons_of_mem p hq))

/-- C6: the syncData merge is idempotent: for a series sorted strictly
ascending by timestamp (hence with at most one point per timestamp key),
merging the series with itself, by timestamp-keyed map union followed by an
ascending sort, returns the series unchanged. -/
theorem mergeSeries_idempotent (h : List AssetHistory)
    (hsorted : List.Pairwise (fun a b => a.ts < b.ts) h) :
    mergeSeries h h = h := by
  have hne : List.Pairwise (fun a b => a.ts ≠ b.ts) h :=
    hsorted.imp (fun hlt => Nat.ne_of_lt hlt)
  have h1 : h.foldl upsert [] = h := by
    have hfold := foldl_upsert_of_distinct h [] (by simpa using hne)
    simpa using hfold
  have h2 : h.foldl upsert h = h :=
    foldl_upsert_fixed h h (fun p hp => upsert_self_mem hne hp)
  have hsorted2 : List.Sorted tsLe h :=
    hsorted.imp (fun hlt => Nat.le_of_lt hlt)
  unfold mergeSeries
  rw [h1, h2]
  exact List.Sorted.insertionSort_eq hsorted2

/-- C6 witness: the merge of the small sorted series with itself. -/
theorem mergeSeries_idempotent_witness :
    mergeSeries histSmall histSmall = histSmall :=
  mergeSeries_idempotent histSmall (by decide)

end Trader
